import Mathlib

/-!
Verification development for the Advanced-Vanilla-CRUD record manager
(src/script.js). The file contains two variants of the application logic:
variant 1 (the DOMContentLoaded block at the top of the file) and
variant 2 (the standalone functions after the separator). Both are
embedded here; suffixes V1 and V2 on definitions name the variant a
definition is translated from.

Records: variant 1 stores `id` as the numeric value of Date.now() and
`createdAt` as an ISO-8601 string; variant 2 stores `id` as a string
(uid()) and `createdAt` as a numeric millisecond timestamp. We keep both
shapes via a type parameterised by the id and timestamp types.
-/

/-- One managed record, parameterised by the id type ι and the createdAt
type τ (variant 1: ι = Nat, τ = String; variant 2: ι = String, τ = Int). -/
structure RecordG (ι : Type) (τ : Type) where
  id : ι
  name : String
  email : String
  role : String
  createdAt : τ
deriving DecidableEq, Repr

/-- Records of variant 1: numeric Date.now() ids, ISO-string createdAt. -/
abbrev RecordV1 := RecordG Nat String

/-- Records of variant 2: string uid() ids, numeric createdAt. -/
abbrev RecordV2 := RecordG String Int

/-- sublist containment on character lists, modelling the JavaScript
String.prototype.includes test used by both filter steps. -/
def includesList (sub : List Char) : List Char → Bool
  | [] => sub.isEmpty
  | c :: t => sub.isPrefixOf (c :: t) || includesList sub t

/-- s.includes(sub) for strings: does s contain sub as a substring. -/
def strIncludes (s sub : String) : Bool :=
  includesList sub.toList s.toList

/-- s.toLowerCase(), modelled as per-character ASCII case folding (the
concrete data of this development is ASCII). -/
def lowerStr (s : String) : String :=
  ⟨s.data.map Char.toLower⟩

/-- s.trim(): strip leading and trailing whitespace. -/
def trimStr (s : String) : String :=
  ⟨((s.data.dropWhile Char.isWhitespace).reverse.dropWhile Char.isWhitespace).reverse⟩

/-- Filter step of variant 1's render (script.js lines 83-86):
keep a user when the lowercased name or the lowercased email contains the
lowercased search query. -/
def filterUsersV1 (users : List RecordV1) (searchQuery : String) : List RecordV1 :=
  users.filter (fun user =>
    strIncludes (lowerStr user.name) (lowerStr searchQuery) ||
    strIncludes (lowerStr user.email) (lowerStr searchQuery))

/-- Filter step of variant 2's queryAndSort (script.js lines 463-466):
the query is trimmed and lowercased first; an empty trimmed query keeps
everything, otherwise keep when lowercased name or email contains it. -/
def filterItemsV2 (items : List RecordV2) (query : String) : List RecordV2 :=
  let q := lowerStr (trimStr query)
  items.filter (fun it =>
    if q = "" then true
    else strIncludes (lowerStr it.name) q || strIncludes (lowerStr it.email) q)

/-- The predicate of claim C5, written from the spec sentence: keep a
record iff the query is empty, or name contains the query
case-insensitively, or email contains the query case-insensitively. -/
def specKeep (name email q : String) : Bool :=
  q = "" || strIncludes (lowerStr name) (lowerStr q) || strIncludes (lowerStr email) (lowerStr q)

theorem includesList_nil_sub (l : List Char) : includesList [] l = true := by
  cases l <;> simp [includesList, List.isPrefixOf]

theorem strIncludes_empty (s : String) : strIncludes s "" = true := by
  simp [strIncludes, includesList_nil_sub]

example : strIncludes "rahim" "ahi" = true := by decide
example : strIncludes "rahim" "kar" = false := by decide
example : strIncludes "rahim@example.com" " rahim " = false := by decide

/-! ### Sort step -/

/-- The sortable fields (the sortBy select offers field:direction pairs
over these fields). -/
inductive SortField
  | name
  | email
  | role
  | createdAt
deriving DecidableEq, Repr

/-- Sort direction, the part after the colon in sortBy. -/
inductive Dir
  | asc
  | desc
deriving DecidableEq, Repr

/-- a[sortKey] for variant 1 records: every sortable field holds a string
(createdAt is stored as an ISO string there). -/
def jsIndexV1 : SortField → RecordV1 → String
  | .name, r => r.name
  | .email, r => r.email
  | .role, r => r.role
  | .createdAt, r => r.createdAt

/-- The comparator passed to filteredUsers.sort in variant 1 (script.js
lines 90-102), returned as an Ordering instead of a number: both values
are strings, so both are lowercased; valA < valB gives -1 for asc and 1
for desc, valA > valB the opposite, ties give 0. -/
def cmpV1 (key : SortField) (dir : Dir) (a b : RecordV1) : Ordering :=
  let valA := lowerStr (jsIndexV1 key a)
  let valB := lowerStr (jsIndexV1 key b)
  if valA < valB then match dir with | .asc => .lt | .desc => .gt
  else if valA > valB then match dir with | .asc => .gt | .desc => .lt
  else .eq

/-- a[key] for the text fields of variant 2 records; the createdAt case
is never consulted because the comparator returns before indexing
(the a-index-key or-empty-string guard on a missing field is the
identity on the always-present fields here). -/
def jsIndexV2 : SortField → RecordV2 → String
  | .name, r => r.name
  | .email, r => r.email
  | .role, r => r.role
  | .createdAt, _ => ""

/-- The sign of a number returned by a JavaScript comparator, as the
Ordering the sort consumes. -/
def signOrd (n : Int) : Ordering :=
  if n < 0 then .lt else if 0 < n then .gt else .eq

/-- The comparator of variant 2's queryAndSort (script.js lines 467-471):
createdAt is compared by the sign of the numeric difference
(a.createdAt - b.createdAt for asc, flipped for desc), the other fields
by lowercased string comparison. -/
def cmpV2 (key : SortField) (dir : Dir) (a b : RecordV2) : Ordering :=
  match key with
  | .createdAt =>
      match dir with
      | .asc => signOrd (a.createdAt - b.createdAt)
      | .desc => signOrd (b.createdAt - a.createdAt)
  | k =>
      let A := lowerStr (jsIndexV2 k a)
      let B := lowerStr (jsIndexV2 k b)
      if A < B then match dir with | .asc => .lt | .desc => .gt
      else if A > B then match dir with | .asc => .gt | .desc => .lt
      else .eq

/-- Insert x into l keeping x before the first element it does not
strictly exceed: the insertion step of a stable insertion sort. -/
def insertCmp (cmp : α → α → Ordering) (x : α) : List α → List α
  | [] => [x]
  | y :: ys => if cmp x y = .gt then y :: insertCmp cmp x ys else x :: y :: ys

/-- Stable sort by a comparator; models Array.prototype.sort, which
ECMAScript requires to be stable, applied to the comparators above. -/
def sortCmp (cmp : α → α → Ordering) : List α → List α
  | [] => []
  | x :: xs => insertCmp cmp x (sortCmp cmp xs)

/-- Filtering by a predicate that is upward-closed under the comparator
(nothing strictly below a satisfying element satisfies it) commutes with
the stable insertion step. -/
theorem filter_insertCmp (cmp : α → α → Ordering) (p : α → Bool) (x : α)
    (h : p x = true → ∀ y, cmp x y = .gt → p y = false) (l : List α) :
    (insertCmp cmp x l).filter p = if p x then x :: l.filter p else l.filter p := by
  induction l with
  | nil => cases hp : p x <;> simp [insertCmp, List.filter_cons, hp]
  | cons y ys ih =>
    by_cases hxy : cmp x y = .gt
    · cases hp : p x with
      | true =>
        have hpy : p y = false := h hp y hxy
        simp [insertCmp, hxy, List.filter_cons, hpy, ih, hp]
      | false =>
        simp only [insertCmp, if_pos hxy, List.filter_cons]
        cases hq : p y <;> simp [ih, hp, hq]
    · cases hp : p x <;> simp [insertCmp, hxy, List.filter_cons, hp]

/-- Stability of sortCmp, phrased through filters: the subsequence of
elements sharing any comparator-equivalence class is untouched by the
sort, i.e. equal-key elements keep their relative input order. -/
theorem filter_sortCmp (cmp : α → α → Ordering) (p : α → Bool)
    (h : ∀ x, p x = true → ∀ y, cmp x y = .gt → p y = false) (l : List α) :
    (sortCmp cmp l).filter p = l.filter p := by
  induction l with
  | nil => rfl
  | cons x xs ih =>
    rw [sortCmp, filter_insertCmp cmp p x (h x), List.filter_cons, ih]

/-! ### Pagination step -/

/-- Result of a render pipeline's pagination step: the page number the
pipeline actually uses for slicing and displays in the footer, the slice
itself, and the computed page total. -/
structure PageResult (ρ : Type) where
  effectivePage : Nat
  pageItems : List ρ
  totalPages : Nat
deriving DecidableEq, Repr

/-- Pagination step of variant 1's render (script.js lines 105-108):
totalPages = Math.ceil(filtered.length / perPage) (no lower bound of 1),
and currentPage is used as-is, never clamped; the slice starts at
(currentPage - 1) * perPage and an out-of-range slice is simply empty. -/
def paginateV1 (filtered : List RecordV1) (perPage currentPage : Nat) : PageResult RecordV1 :=
  let totalPages := (filtered.length + perPage - 1) / perPage
  let start := (currentPage - 1) * perPage
  { effectivePage := currentPage
    pageItems := (filtered.drop start).take perPage
    totalPages := totalPages }

/-- Pagination step of variant 2's render (script.js lines 484-487):
pages = max(1, ceil(total / perPage)); state.page is pulled down to
pages when it exceeds it, and the slice uses the corrected page. -/
def paginateV2 (filtered : List RecordV2) (perPage page : Nat) : PageResult RecordV2 :=
  let pages := max 1 ((filtered.length + perPage - 1) / perPage)
  let p := if page > pages then pages else page
  { effectivePage := p
    pageItems := (filtered.drop ((p - 1) * perPage)).take perPage
    totalPages := pages }

/-! ### Storage load -/

/-- A JavaScript value as far as the load paths can observe one: the
possible results of JSON.parse relevant here, with arrays specialised to
arrays of records (ρ is the record type of the variant). -/
inductive JsVal (ρ : Type)
  | null
  | bool (b : Bool)
  | num (n : Int)
  | str (s : String)
  | arr (items : List ρ)
  | obj
deriving DecidableEq

/-- JavaScript truthiness of a JsVal (null, false, 0 and the empty
string are falsy; arrays and objects are truthy). -/
def truthy : JsVal ρ → Bool
  | .null => false
  | .bool b => b
  | .num n => n != 0
  | .str s => s != ""
  | .arr _ => true
  | .obj => true

/-- The observable state of the storage slot as seen through
localStorage.getItem followed by JSON.parse: the slot is absent
(getItem yields null), or holds a payload JSON.parse rejects with a
SyntaxError, or holds a payload parsing to the value v. -/
inductive StoredPayload (ρ : Type)
  | missing
  | unparseable (raw : String)
  | parsed (v : JsVal ρ)

/-- Startup initialisation of variant 1 (script.js line 54):
JSON.parse(localStorage.getItem(KEY)) || []. A missing slot makes
JSON.parse receive null, which coerces to the string form of null and
parses to the null value, so the || falls through to []; a payload
JSON.parse rejects makes the whole expression throw (there is no
try/catch on this path); a parsed falsy value falls through to []. -/
def usersInitV1 : StoredPayload RecordV1 → Except String (JsVal RecordV1)
  | .missing => .ok (.arr [])
  | .unparseable _ => .error "SyntaxError"
  | .parsed v => .ok (if truthy v then v else .arr [])

/-- Variant 2's load (script.js lines 447-450): the raw slot value is
tested for truthiness before parsing (null and the empty string skip the
parse), and the whole read is wrapped in try/catch with the catch
setting the items to []. -/
def loadV2 : StoredPayload RecordV2 → JsVal RecordV2
  | .missing => .arr []
  | .unparseable _ => .arr []
  | .parsed v => v

/-! ### Create, validation, duplicate -/

/-- A character JavaScript regex class [^@ \ s] accepts: anything that is
not the at sign and not whitespace. -/
def emailChar (c : Char) : Bool :=
  c != '@' && !c.isWhitespace

/-- Does the character list contain a dot strictly inside it (some
position i with 0 < i < length - 1)? This is exactly when the regex
tail, one-or-more then dot then one-or-more, can split the domain. -/
def hasInteriorDot (l : List Char) : Bool :=
  (List.range l.length).any (fun i =>
    decide (0 < i) && decide (i + 1 < l.length) && (l.getD i ' ' == '.'))

/-- validateEmail of variant 2 (script.js line 604): the regex
anchored-local at domain dot tld shape, where local, domain and tld are
nonempty runs of characters that are neither the at sign nor whitespace.
Equivalently: exactly one at sign, a nonempty local part, and a domain
with an interior dot, all over emailChar characters. -/
def validateEmail (v : String) : Bool :=
  match v.toList.splitOn '@' with
  | [a, b] => !a.isEmpty && a.all emailChar && b.all emailChar && hasInteriorDot b
  | _ => false

/-- Outcome of a create (form submit) handler: the record list after the
handler, whether persistence ran, and whether a validation alert was
shown. -/
structure SubmitResult (ρ : Type) where
  items : List ρ
  persisted : Bool
  validationAlert : Bool
deriving DecidableEq, Repr

/-- Variant 1's itemForm submit handler (script.js lines 160-173): no
validation whatsoever; a record with id = Date.now(), trimmed name and
email, the selected role and createdAt = the ISO now-string is
unshifted onto the front of users, then saveToLocalStorage runs. -/
def submitV1 (users : List RecordV1) (now : Nat) (nowIso : String)
    (nameValue emailValue roleValue : String) : SubmitResult RecordV1 :=
  let newUser : RecordV1 :=
    { id := now, name := trimStr nameValue, email := trimStr emailValue,
      role := roleValue, createdAt := nowIso }
  { items := newUser :: users, persisted := true, validationAlert := false }

/-- Variant 2's form submit handler plus addItem (script.js lines
547-552 and 519): the trimmed name must be nonempty and the trimmed
email must pass validateEmail, otherwise an alert is shown and nothing
happens; on success addItem assigns id = uid() and createdAt = Date.now()
and pushes the record to the end of the items, then saves. -/
def submitV2 (items : List RecordV2) (freshId : String) (now : Int)
    (nameValue emailValue roleValue : String) : SubmitResult RecordV2 :=
  let nv := trimStr nameValue
  let ev := trimStr emailValue
  if nv = "" || !validateEmail ev then
    { items := items, persisted := false, validationAlert := true }
  else
    { items := items ++ [{ id := freshId, name := nv, email := ev,
                           role := roleValue, createdAt := now }],
      persisted := true, validationAlert := false }

/-- Variant 1's copy action (script.js lines 242-250): find the record
with the clicked id; if present, spread it into a new record overriding
id with Date.now() and createdAt with the ISO now-string, and unshift it
onto the front of users (then save and render); if absent, do nothing. -/
def copyV1 (users : List RecordV1) (targetId : Nat) (now : Nat) (nowIso : String) :
    List RecordV1 :=
  match users.find? (fun u => u.id == targetId) with
  | none => users
  | some user => { user with id := now, createdAt := nowIso } :: users

/-! ### Delete family and selection -/

/-- Variant 1's single delete action after the confirm (script.js lines
221-228): drop the record with the clicked id and remove that id from
the selection set. -/
def deleteActionV1 (users : List RecordV1) (selectedIds : Finset Nat) (targetId : Nat) :
    List RecordV1 × Finset Nat :=
  (users.filter (fun user => user.id != targetId), selectedIds.erase targetId)

/-- Variant 1's bulk delete after the confirm (script.js lines 303-315):
drop every selected record, clear the selection entirely and reset the
page cursor to 1. -/
def bulkDeleteV1 (users : List RecordV1) (selectedIds : Finset Nat) :
    List RecordV1 × Finset Nat × Nat :=
  (users.filter (fun user => !decide (user.id ∈ selectedIds)), ∅, 1)

/-- Variant 1's clear-all after the confirm (script.js lines 318-325). -/
def clearAllV1 (_users : List RecordV1) (_selectedIds : Finset Nat) :
    List RecordV1 × Finset Nat :=
  ([], ∅)

/-- Variant 2's deleteItem (script.js line 521). -/
def deleteItemV2 (items : List RecordV2) (selected : Finset String) (targetId : String) :
    List RecordV2 × Finset String :=
  (items.filter (fun x => x.id != targetId), selected.erase targetId)

/-- Variant 2's bulkDelete after the confirm (script.js line 524). -/
def bulkDeleteV2 (items : List RecordV2) (selected : Finset String) :
    List RecordV2 × Finset String :=
  (items.filter (fun x => !decide (x.id ∈ selected)), ∅)

/-- Variant 2's clear-all after the confirm (script.js line 564). -/
def clearAllV2 (_items : List RecordV2) (_selected : Finset String) :
    List RecordV2 × Finset String :=
  ([], ∅)

/-- The select-all checkbox computation of variant 1's render (script.js
line 139): every paginated user is selected AND the page is nonempty. -/
def selectAllCheckedV1 (paginatedUsers : List RecordV1) (selectedIds : Finset Nat) : Bool :=
  paginatedUsers.all (fun user => decide (user.id ∈ selectedIds)) &&
    decide (0 < paginatedUsers.length)

/-- The select-all checkbox computation of variant 2's render (script.js
line 512): the page is nonempty AND every page item is selected. -/
def selectAllCheckedV2 (pageItems : List RecordV2) (selected : Finset String) : Bool :=
  decide (0 < pageItems.length) &&
    pageItems.all (fun i => decide (i.id ∈ selected))

/-! ### View-state handlers -/

/-- The view-state of variant 1 that the toolbar handlers touch. -/
structure ViewStateV1 where
  currentPage : Nat
  perPage : Nat
  searchQuery : String
deriving DecidableEq, Repr

/-- Variant 1's search input handler (script.js lines 180-184): store
the raw input value and reset the page cursor to 1. -/
def searchInputV1 (s : ViewStateV1) (value : String) : ViewStateV1 :=
  { s with searchQuery := value, currentPage := 1 }

/-- Variant 1's perPage change handler (script.js lines 186-190): store
the parsed page size and reset the page cursor to 1. -/
def perPageChangeV1 (s : ViewStateV1) (value : Nat) : ViewStateV1 :=
  { s with perPage := value, currentPage := 1 }

/-- The view-state of variant 2 that the toolbar handlers touch
(state.perPage is assigned the raw select value, a string). -/
structure ViewStateV2 where
  page : Nat
  perPage : String
  query : String
deriving DecidableEq, Repr

/-- Variant 2's search input handler (script.js line 556). -/
def searchInputV2 (s : ViewStateV2) (value : String) : ViewStateV2 :=
  { s with query := value, page := 1 }

/-- Variant 2's perPage change handler (script.js line 557). -/
def perPageChangeV2 (s : ViewStateV2) (value : String) : ViewStateV2 :=
  { s with perPage := value, page := 1 }

/-! ### The next-button page bound (variant 1) -/

/-- The page total recomputed inside variant 1's next-button handler
(script.js line 206): it filters on the name only, ignoring the email,
before dividing by perPage. -/
def nextTotalPagesV1 (users : List RecordV1) (searchQuery : String) (perPage : Nat) : Nat :=
  ((users.filter (fun u => strIncludes (lowerStr u.name) (lowerStr searchQuery))).length
      + perPage - 1) / perPage

/-- The page total the render pipeline of variant 1 computes over the
same state (script.js lines 83-86 and 105). -/
def renderTotalPagesV1 (users : List RecordV1) (searchQuery : String) (perPage : Nat) : Nat :=
  ((filterUsersV1 users searchQuery).length + perPage - 1) / perPage

/-! ### Concrete data used by counterexamples and witnesses -/

/-- Twelve records, for the pagination scenario of the spec. -/
def recs12 : List RecordV1 :=
  (List.range 12).map (fun k =>
    { id := k, name := "user", email := "user@example.com", role := "user", createdAt := "T" })

/-- A concrete variant-1 record. -/
def anaRec : RecordV1 :=
  { id := 5, name := "Ana", email := "ana@example.com", role := "admin", createdAt := "T1" }

/-- The Rahim record of the spec scenario, variant-1 shape. -/
def rahimV1rec : RecordV1 :=
  { id := 1, name := "Rahim", email := "rahim@example.com", role := "admin", createdAt := "T1" }

/-- The Rahim record of the spec scenario, variant-2 shape. -/
def rahimV2rec : RecordV2 :=
  { id := "i1", name := "Rahim", email := "rahim@example.com", role := "admin", createdAt := 100 }

/-- A record whose only match for the query kar is its email. -/
def bobRec : RecordV1 :=
  { id := 1, name := "Bob", email := "kar@example.com", role := "user", createdAt := "T1" }

/-! ### Claim theorems -/

/-- C2, counterexample: variant 1 initialises the record list as
JSON.parse(getItem(KEY)) || [] with no try/catch, so a corrupt payload
makes the load raise a SyntaxError to the caller instead of yielding the
empty sequence, contradicting the claim that loading never raises. -/
theorem C2_counterexample :
    usersInitV1 (StoredPayload.unparseable "\x7bcorrupt") = Except.error "SyntaxError"
    ∧ (usersInitV1 (StoredPayload.unparseable "\x7bcorrupt")).isOk = false :=
  ⟨rfl, rfl⟩

/-- C2, amended: variant 2's load never raises — a missing slot and an
unparseable payload both yield the empty sequence — while variant 1
yields the empty sequence on a missing slot but raises on an
unparseable payload. -/
theorem C2_load_amended :
    usersInitV1 StoredPayload.missing = Except.ok (JsVal.arr [])
    ∧ (∀ s, usersInitV1 (StoredPayload.unparseable s) = Except.error "SyntaxError")
    ∧ loadV2 StoredPayload.missing = JsVal.arr []
    ∧ (∀ s, loadV2 (StoredPayload.unparseable s) = JsVal.arr []) :=
  ⟨rfl, fun _ => rfl, rfl, fun _ => rfl⟩

/-- C3, counterexample: variant 1's submit handler performs no
validation: submitting an empty name (and a malformed email) still
prepends a record and persists, so the store is mutated. -/
theorem C3_counterexample :
    submitV1 [] 99 "2024-01-01T00:00:00.000Z" "" "not-an-email" "admin" =
      { items := [{ id := 99, name := "", email := "not-an-email", role := "admin",
                    createdAt := "2024-01-01T00:00:00.000Z" }],
        persisted := true, validationAlert := false }
    ∧ trimStr "" = "" := by decide

/-- C3, amended: variant 2's create validates: whenever the trimmed name
is empty or the trimmed email fails the email shape, the handler shows a
validation alert, leaves the store unchanged and does not persist;
variant 1's create performs no validation at all and always mutates. -/
theorem C3_createV2_validates (items : List RecordV2) (freshId : String) (now : Int)
    (nameValue emailValue roleValue : String)
    (h : trimStr nameValue = "" ∨ validateEmail (trimStr emailValue) = false) :
    submitV2 items freshId now nameValue emailValue roleValue =
      { items := items, persisted := false, validationAlert := true } := by
  unfold submitV2
  rcases h with h | h <;> simp [h]

/-- Witness for C3_createV2_validates at a concrete input. -/
theorem C3_createV2_validates_witness :
    submitV2 [] "id1" 0 "" "someone@example.com" "admin" =
      { items := [], persisted := false, validationAlert := true } :=
  C3_createV2_validates [] "id1" 0 "" "someone@example.com" "admin" (Or.inl (by decide))

/-- C7: in both variants the select-all indicator is true exactly when
the visible page is nonempty and every id on it is selected; an empty
page is never reported as fully selected. -/
theorem C7_select_all_iff (pageV1 : List RecordV1) (selV1 : Finset Nat)
    (pageV2 : List RecordV2) (selV2 : Finset String) :
    (selectAllCheckedV1 pageV1 selV1 = true ↔
      pageV1 ≠ [] ∧ ∀ u ∈ pageV1, u.id ∈ selV1)
    ∧ (selectAllCheckedV2 pageV2 selV2 = true ↔
      pageV2 ≠ [] ∧ ∀ i ∈ pageV2, i.id ∈ selV2)
    ∧ selectAllCheckedV1 [] selV1 = false
    ∧ selectAllCheckedV2 [] selV2 = false := by
  refine ⟨?_, ?_, by simp [selectAllCheckedV1], by simp [selectAllCheckedV2]⟩
  · simp [selectAllCheckedV1, List.all_eq_true, List.length_pos, and_comm]
  · simp [selectAllCheckedV2, List.all_eq_true, List.length_pos, and_comm]

/-- C8: each delete-family operation of both variants leaves no deleted
id in the store and prunes the selection: single delete removes the id
from store and selection, bulk delete removes every selected record and
empties the selection, clear-all empties both. -/
theorem C8_delete_pruning (usersV1 : List RecordV1) (selV1 : Finset Nat) (i : Nat)
    (itemsV2 : List RecordV2) (selV2 : Finset String) (j : String) :
    (∀ u ∈ (deleteActionV1 usersV1 selV1 i).1, u.id ≠ i)
    ∧ i ∉ (deleteActionV1 usersV1 selV1 i).2
    ∧ (∀ u ∈ (bulkDeleteV1 usersV1 selV1).1, u.id ∉ selV1)
    ∧ (bulkDeleteV1 usersV1 selV1).2.1 = ∅
    ∧ (clearAllV1 usersV1 selV1).1 = [] ∧ (clearAllV1 usersV1 selV1).2 = ∅
    ∧ (∀ x ∈ (deleteItemV2 itemsV2 selV2 j).1, x.id ≠ j)
    ∧ j ∉ (deleteItemV2 itemsV2 selV2 j).2
    ∧ (∀ x ∈ (bulkDeleteV2 itemsV2 selV2).1, x.id ∉ selV2)
    ∧ (bulkDeleteV2 itemsV2 selV2).2 = ∅
    ∧ (clearAllV2 itemsV2 selV2).1 = [] ∧ (clearAllV2 itemsV2 selV2).2 = ∅ := by
  refine ⟨?_, Finset.not_mem_erase i selV1, ?_, rfl, rfl, rfl,
          ?_, Finset.not_mem_erase j selV2, ?_, rfl, rfl, rfl⟩
  · intro u hu
    simpa using (List.mem_filter.mp hu).2
  · intro u hu
    simpa using (List.mem_filter.mp hu).2
  · intro x hx
    simpa using (List.mem_filter.mp hx).2
  · intro x hx
    simpa using (List.mem_filter.mp hx).2

/-- C10: in both variants, the search-input handler and the page-size
handler unconditionally reset the page cursor to 1, whatever the
previous state. -/
theorem C10_handlers_reset_page (s1 : ViewStateV1) (q : String) (n : Nat)
    (s2 : ViewStateV2) (q2 pp : String) :
    (searchInputV1 s1 q).currentPage = 1
    ∧ (perPageChangeV1 s1 n).currentPage = 1
    ∧ (searchInputV2 s2 q2).page = 1
    ∧ (perPageChangeV2 s2 pp).page = 1 :=
  ⟨rfl, rfl, rfl, rfl⟩

/-- C1, counterexample: variant 1's pagination step never clamps: with
12 records, perPage 5 and requested page 10 the computed page total is 3
yet the effective page stays 10, outside [1, 3], and the rendered slice
is empty instead of the last page. -/
theorem C1_counterexample :
    (paginateV1 recs12 5 10).totalPages = 3
    ∧ (paginateV1 recs12 5 10).effectivePage = 10
    ∧ ¬ ((paginateV1 recs12 5 10).effectivePage ≤ (paginateV1 recs12 5 10).totalPages)
    ∧ (paginateV1 recs12 5 10).pageItems = [] := by decide

/-- C1, amended: only variant 2's pagination step clamps, and only from
above: for any requested page at least 1, the effective page is
min(requested, totalPages), lies in [1, totalPages] with
totalPages = max(1, ceil(count / perPage)), and a request beyond the
total silently falls back to the last page; variant 1 never clamps. -/
theorem C1_paginateV2_clamps (filtered : List RecordV2) (perPage page : Nat)
    (hpage : 1 ≤ page) :
    1 ≤ (paginateV2 filtered perPage page).effectivePage
    ∧ (paginateV2 filtered perPage page).effectivePage
        ≤ (paginateV2 filtered perPage page).totalPages
    ∧ (paginateV2 filtered perPage page).totalPages
        = max 1 ((filtered.length + perPage - 1) / perPage)
    ∧ (page > (paginateV2 filtered perPage page).totalPages →
        (paginateV2 filtered perPage page).effectivePage
          = (paginateV2 filtered perPage page).totalPages)
    ∧ (paginateV2 filtered perPage page).effectivePage
        = min page (paginateV2 filtered perPage page).totalPages := by
  have hpages : 1 ≤ max 1 ((filtered.length + perPage - 1) / perPage) := le_max_left 1 _
  have htot : (paginateV2 filtered perPage page).totalPages
      = max 1 ((filtered.length + perPage - 1) / perPage) := rfl
  have heff : (paginateV2 filtered perPage page).effectivePage
      = min page (max 1 ((filtered.length + perPage - 1) / perPage)) := by
    show (if page > max 1 ((filtered.length + perPage - 1) / perPage)
          then max 1 ((filtered.length + perPage - 1) / perPage) else page) = _
    by_cases hgt : page > max 1 ((filtered.length + perPage - 1) / perPage)
    · rw [if_pos hgt, min_eq_right (le_of_lt hgt)]
    · rw [if_neg hgt, min_eq_left (le_of_not_lt hgt)]
  refine ⟨?_, ?_, htot, ?_, by rw [heff, htot]⟩
  · rw [heff]
    exact le_min hpage hpages
  · rw [heff, htot]
    exact min_le_right _ _
  · intro h
    rw [htot] at h
    rw [heff, htot, min_eq_right (le_of_lt h)]

/-- Witness for C1_paginateV2_clamps at a concrete input beyond the last
page. -/
theorem C1_paginateV2_clamps_witness :
    1 ≤ (paginateV2 [] 5 10).effectivePage
    ∧ (paginateV2 [] 5 10).effectivePage ≤ (paginateV2 [] 5 10).totalPages
    ∧ (paginateV2 [] 5 10).totalPages
        = max 1 ((List.length ([] : List RecordV2) + 5 - 1) / 5)
    ∧ (10 > (paginateV2 [] 5 10).totalPages →
        (paginateV2 [] 5 10).effectivePage = (paginateV2 [] 5 10).totalPages)
    ∧ (paginateV2 [] 5 10).effectivePage = min 10 (paginateV2 [] 5 10).totalPages :=
  C1_paginateV2_clamps [] 5 10 (by decide)

/-- C4, counterexample: variant 1 mints ids with Date.now(), so copying
a record during the same millisecond in which it was created yields a
second live record with the same id: copying the id-5 record when
Date.now() is again 5 leaves two records with id 5, so ids are not
unique and the minted id equals an existing one. -/
theorem C4_counterexample :
    copyV1 [anaRec] 5 5 "T2" = [{ anaRec with createdAt := "T2" }, anaRec]
    ∧ (copyV1 [anaRec] 5 5 "T2").map RecordG.id = [5, 5]
    ∧ ¬ (copyV1 [anaRec] 5 5 "T2").Pairwise (fun a b => a.id ≠ b.id) := by decide

/-- C4, amended: copying an existing record yields a new record with the
same name, email and role, id equal to the Date.now() value and
createdAt equal to the ISO now-string, prepended to the store, whose
length grows by exactly 1; the minted id is distinct from every live
record's id provided the Date.now() value differs from all of them
(uniqueness is not guaranteed within a millisecond). -/
theorem C4_duplicate (users : List RecordV1) (targetId now : Nat) (nowIso : String)
    (u : RecordV1) (hfind : users.find? (fun r => r.id == targetId) = some u)
    (hfresh : now ∉ users.map RecordG.id) :
    ∃ newRec : RecordV1,
      copyV1 users targetId now nowIso = newRec :: users
      ∧ newRec.name = u.name ∧ newRec.email = u.email ∧ newRec.role = u.role
      ∧ newRec.id = now ∧ newRec.createdAt = nowIso
      ∧ (∀ r ∈ users, newRec.id ≠ r.id)
      ∧ (copyV1 users targetId now nowIso).length = users.length + 1 := by
  refine ⟨{ u with id := now, createdAt := nowIso }, ?_, rfl, rfl, rfl, rfl, rfl, ?_, ?_⟩
  · simp [copyV1, hfind]
  · intro r hr hne
    apply hfresh
    have hid : now = r.id := hne
    rw [hid]
    exact List.mem_map_of_mem RecordG.id hr
  · simp [copyV1, hfind]

/-- Witness for C4_duplicate: copying the id-5 record at a fresh
Date.now() value 7. -/
theorem C4_duplicate_witness :
    ∃ newRec : RecordV1,
      copyV1 [anaRec] 5 7 "T2" = newRec :: [anaRec]
      ∧ newRec.name = anaRec.name ∧ newRec.email = anaRec.email
      ∧ newRec.role = anaRec.role
      ∧ newRec.id = 7 ∧ newRec.createdAt = "T2"
      ∧ (∀ r ∈ [anaRec], newRec.id ≠ r.id)
      ∧ (copyV1 [anaRec] 5 7 "T2").length = [anaRec].length + 1 :=
  C4_duplicate [anaRec] 5 7 "T2" anaRec (by decide) (by decide)

/-- Pointwise form of variant 1's filter predicate against the claim's
predicate: they agree on every record and every query. -/
theorem keepV1_eq_specKeep (name email q : String) :
    (strIncludes (lowerStr name) (lowerStr q) || strIncludes (lowerStr email) (lowerStr q))
      = specKeep name email q := by
  unfold specKeep
  by_cases hq : q = ""
  · subst hq
    simp [strIncludes_empty, show lowerStr "" = "" from rfl]
  · simp [hq]

/-- Pointwise form of variant 2's filter predicate against the claim's
predicate applied to the trimmed query. -/
theorem keepV2_eq_specKeep (name email q : String) :
    (if lowerStr (trimStr q) = "" then true
     else strIncludes (lowerStr name) (lowerStr (trimStr q))
          || strIncludes (lowerStr email) (lowerStr (trimStr q)))
      = specKeep name email (trimStr q) := by
  unfold specKeep
  by_cases h : lowerStr (trimStr q) = ""
  · simp [h, strIncludes_empty]
  · have hne : trimStr q ≠ "" := fun he => h (by rw [he]; rfl)
    simp [h, hne]

/-- C5, counterexample: variant 2 trims the query first, so with the
query padded by spaces it keeps the Rahim record even though neither
name nor email contains the raw query case-insensitively and the raw
query is nonempty — the keep-iff of the claim fails on this input. -/
theorem C5_counterexample :
    filterItemsV2 [rahimV2rec] " rahim " = [rahimV2rec]
    ∧ specKeep rahimV2rec.name rahimV2rec.email " rahim " = false
    ∧ (" rahim " : String) ≠ "" := by decide

/-- C5, amended: variant 1's filter keeps a record exactly under the
claim's predicate (query empty, or name or email contains it
case-insensitively, no other field searched); variant 2 keeps a record
exactly under the claim's predicate applied to the trimmed query; and
the spec scenario holds: query kar over the Rahim store filters to the
empty sequence. -/
theorem C5_filter_spec (users : List RecordV1) (items : List RecordV2) (q : String) :
    filterUsersV1 users q = users.filter (fun u => specKeep u.name u.email q)
    ∧ filterItemsV2 items q = items.filter (fun it => specKeep it.name it.email (trimStr q))
    ∧ filterUsersV1 [rahimV1rec] "kar" = []
    ∧ filterItemsV2 [rahimV2rec] "kar" = [] := by
  refine ⟨?_, ?_, by decide, by decide⟩
  · exact List.filter_congr (fun u _ => keepV1_eq_specKeep u.name u.email q)
  · exact List.filter_congr (fun it _ => keepV2_eq_specKeep it.name it.email q)

/-- C9: the page bound of variant 1's next-button handler filters on the
name only, while the render pipeline filters on name or email; on a
store whose record matches the query kar only by email, the render
total is 1 page but the handler's total is 0, so the two computations
disagree (the handler then refuses to advance even when render enabled
the next button). -/
theorem C9_next_page_bound_diverges :
    renderTotalPagesV1 [bobRec] "kar" 5 = 1
    ∧ nextTotalPagesV1 [bobRec] "kar" 5 = 0
    ∧ renderTotalPagesV1 [bobRec] "kar" 5 ≠ nextTotalPagesV1 [bobRec] "kar" 5 := by
  decide

/-! ### C6: stability and comparator facts -/

/-- The sort step of variant 1's render: the stable sort of the filtered
users by the variant-1 comparator. -/
def sortStepV1 (f : SortField) (d : Dir) (l : List RecordV1) : List RecordV1 :=
  sortCmp (cmpV1 f d) l

/-- The sort step of variant 2's queryAndSort. -/
def sortStepV2 (f : SortField) (d : Dir) (l : List RecordV2) : List RecordV2 :=
  sortCmp (cmpV2 f d) l

/-- The key the variant-2 comparator orders by: the numeric createdAt
for the createdAt field, the lowercased text value otherwise. Only used
to state which records count as tied. -/
def sortKeyV2 : SortField → RecordV2 → String ⊕ Int
  | .createdAt, r => .inr r.createdAt
  | f, r => .inl (lowerStr (jsIndexV2 f r))

/-! Variant 1 stores createdAt as new Date().toISOString(). To settle the
chronological clause of the sort claim for that variant, the builtin
Date.prototype.toISOString is modelled below for non-negative timestamps
whose year stays below 10000: the fixed 24-character UTC layout
YYYY-MM-DDTHH:mm:ss.sssZ over the proleptic Gregorian calendar counted
from the 1970 epoch, exactly as ECMAScript specifies it. -/

/-- The decimal digit character for d (callers keep d below 10). -/
def digitChar : Nat → Char
  | 0 => '0' | 1 => '1' | 2 => '2' | 3 => '3' | 4 => '4'
  | 5 => '5' | 6 => '6' | 7 => '7' | 8 => '8' | _ => '9'

/-- Zero-padded width-w decimal rendering of n, most significant digit
first. -/
def padNum : Nat → Nat → List Char
  | 0, _ => []
  | w + 1, n => padNum w (n / 10) ++ [digitChar (n % 10)]

/-- Gregorian leap-year rule, as in the ECMAScript date arithmetic. -/
def isLeap (y : Nat) : Bool := (y % 4 == 0 && y % 100 != 0) || y % 400 == 0

/-- Days in month m (1-12) of a year with the given leap flag. -/
def monthLength (leap : Bool) (m : Nat) : Nat :=
  if m = 2 then (if leap then 29 else 28)
  else if m = 4 ∨ m = 6 ∨ m = 9 ∨ m = 11 then 30
  else 31

/-- The civil successor of a (year, month, day) triple. -/
def nextDay : Nat × Nat × Nat → Nat × Nat × Nat
  | (y, m, d) =>
    if d < monthLength (isLeap y) m then (y, m, d + 1)
    else if m < 12 then (y, m + 1, 1)
    else (y + 1, 1, 1)

/-- The (year, month, day) triple that lies the given number of days
after 1970-01-01. -/
def dateOfDays (days : Nat) : Nat × Nat × Nat :=
  nextDay^[days] (1970, 1, 1)

/-- Lexicographic (chronological) order on (year, month, day). -/
def ymdLt : Nat × Nat × Nat → Nat × Nat × Nat → Prop
  | (y1, m1, d1), (y2, m2, d2) => y1 < y2 ∨ (y1 = y2 ∧ (m1 < m2 ∨ (m1 = m2 ∧ d1 < d2)))

/-- The month and day ranges every reachable civil date satisfies. -/
def ymdValid : Nat × Nat × Nat → Prop
  | (_, m, d) => 1 ≤ m ∧ m ≤ 12 ∧ 1 ≤ d ∧ d ≤ 31

/-- The ISO layout with the two letter positions abstracted, so the same
monotonicity proof serves the rendered string and its lowercase image. -/
def isoCharsWith (tc zc : Char) (y mo d h mi s ms : Nat) : List Char :=
  padNum 4 y ++ '-' :: (padNum 2 mo ++ '-' :: (padNum 2 d ++ tc ::
    (padNum 2 h ++ ':' :: (padNum 2 mi ++ ':' :: (padNum 2 s ++ '.' ::
      (padNum 3 ms ++ [zc]))))))

/-- Model of the builtin Date.prototype.toISOString on a non-negative
millisecond timestamp: the calendar date of the day count and the
div/mod decomposition of the time of day, rendered in the fixed
YYYY-MM-DDTHH:mm:ss.sssZ layout. -/
def toISOStringModel (n : Nat) : String :=
  match dateOfDays (n / 86400000) with
  | (y, mo, d) =>
    ⟨isoCharsWith 'T' 'Z' y mo d (n % 86400000 / 3600000) (n % 86400000 % 3600000 / 60000)
      (n % 86400000 % 60000 / 1000) (n % 86400000 % 1000)⟩

example : toISOStringModel 0 = "1970-01-01T00:00:00.000Z" := by decide
example : toISOStringModel 90061001 = "1970-01-02T01:01:01.001Z" := by decide

theorem padNum_length (w n : Nat) : (padNum w n).length = w := by
  induction w generalizing n with
  | zero => rfl
  | succ w ih => simp [padNum, ih]

theorem digitChar_lt {d1 d2 : Nat} (h : d1 < d2) (h2 : d2 < 10) :
    digitChar d1 < digitChar d2 := by
  interval_cases d2 <;> interval_cases d1 <;> decide

theorem toLower_digitChar (d : Nat) : Char.toLower (digitChar d) = digitChar d := by
  unfold digitChar
  split <;> decide

theorem map_toLower_padNum (w n : Nat) : (padNum w n).map Char.toLower = padNum w n := by
  induction w generalizing n with
  | zero => rfl
  | succ w ih => simp [padNum, List.map_append, ih, toLower_digitChar]

theorem map_toLower_isoChars (y mo d h mi s ms : Nat) :
    (isoCharsWith 'T' 'Z' y mo d h mi s ms).map Char.toLower
      = isoCharsWith 't' 'z' y mo d h mi s ms := by
  simp [isoCharsWith, List.map_append, map_toLower_padNum]

theorem lexlt_append_left (A : List Char) {t1 t2 : List Char}
    (h : List.Lex (· < ·) t1 t2) : List.Lex (· < ·) (A ++ t1) (A ++ t2) := by
  induction A with
  | nil => exact h
  | cons c A ih => exact List.Lex.cons ih

theorem lexlt_append_of_lex {A B : List Char} (t1 t2 : List Char)
    (hlen : A.length = B.length) (h : List.Lex (· < ·) A B) :
    List.Lex (· < ·) (A ++ t1) (B ++ t2) := by
  induction h with
  | nil => simp at hlen
  | cons h ih => exact List.Lex.cons (ih (by simpa using hlen))
  | rel h => exact List.Lex.rel h

theorem padNum_lt {w n m : Nat} (h : n < m) (hb : m < 10 ^ w) :
    List.Lex (· < ·) (padNum w n) (padNum w m) := by
  induction w generalizing n m with
  | zero => simp [pow_zero] at hb; omega
  | succ w ih =>
    have hq : n / 10 ≤ m / 10 := Nat.div_le_div_right (le_of_lt h)
    have hmb : m / 10 < 10 ^ w := by
      have hp : (10:Nat) ^ (w + 1) = 10 ^ w * 10 := pow_succ 10 w
      omega
    rcases lt_or_eq_of_le hq with hq | hq
    · exact lexlt_append_of_lex _ _ (by rw [padNum_length, padNum_length]) (ih hq hmb)
    · have hd : n % 10 < m % 10 := by omega
      show List.Lex (· < ·) (padNum w (n / 10) ++ [digitChar (n % 10)]) _
      rw [hq]
      exact lexlt_append_left _ (List.Lex.rel (digitChar_lt hd (by omega)))

theorem lexlt_padField {w f1 f2 : Nat} (r1 r2 : List Char) (h : f1 < f2)
    (hb : f2 < 10 ^ w) :
    List.Lex (· < ·) (padNum w f1 ++ r1) (padNum w f2 ++ r2) :=
  lexlt_append_of_lex r1 r2 (by rw [padNum_length, padNum_length]) (padNum_lt h hb)

/-- Lexicographic order on the fixed ISO layout follows the
lexicographic order of the field tuple, whenever the fields fit their
widths. -/
theorem isoCharsWith_mono (tc zc : Char)
    {y1 mo1 d1 h1 mi1 s1 ms1 y2 mo2 d2 h2 mi2 s2 ms2 : Nat}
    (hy2 : y2 < 10 ^ 4) (hmo2 : mo2 < 10 ^ 2) (hd2 : d2 < 10 ^ 2)
    (hh2 : h2 < 10 ^ 2) (hmi2 : mi2 < 10 ^ 2) (hs2 : s2 < 10 ^ 2) (hms2 : ms2 < 10 ^ 3)
    (hlt : y1 < y2 ∨ (y1 = y2 ∧ (mo1 < mo2 ∨ (mo1 = mo2 ∧ (d1 < d2 ∨ (d1 = d2 ∧
           (h1 < h2 ∨ (h1 = h2 ∧ (mi1 < mi2 ∨ (mi1 = mi2 ∧ (s1 < s2 ∨ (s1 = s2 ∧
           ms1 < ms2)))))))))))) :
    List.Lex (· < ·) (isoCharsWith tc zc y1 mo1 d1 h1 mi1 s1 ms1)
                     (isoCharsWith tc zc y2 mo2 d2 h2 mi2 s2 ms2) := by
  unfold isoCharsWith
  obtain hy | ⟨rfl, hlt⟩ := hlt
  · exact lexlt_padField _ _ hy hy2
  apply lexlt_append_left
  apply List.Lex.cons
  obtain hmo | ⟨rfl, hlt⟩ := hlt
  · exact lexlt_padField _ _ hmo hmo2
  apply lexlt_append_left
  apply List.Lex.cons
  obtain hd | ⟨rfl, hlt⟩ := hlt
  · exact lexlt_padField _ _ hd hd2
  apply lexlt_append_left
  apply List.Lex.cons
  obtain hh | ⟨rfl, hlt⟩ := hlt
  · exact lexlt_padField _ _ hh hh2
  apply lexlt_append_left
  apply List.Lex.cons
  obtain hmi | ⟨rfl, hlt⟩ := hlt
  · exact lexlt_padField _ _ hmi hmi2
  apply lexlt_append_left
  apply List.Lex.cons
  obtain hs | ⟨rfl, hms⟩ := hlt
  · exact lexlt_padField _ _ hs hs2
  apply lexlt_append_left
  apply List.Lex.cons
  exact lexlt_padField _ _ hms hms2

theorem monthLength_le (leap : Bool) (m : Nat) : monthLength leap m ≤ 31 := by
  unfold monthLength
  split
  · split <;> omega
  · split <;> omega

theorem nextDay_ymdLt (t : Nat × Nat × Nat) : ymdLt t (nextDay t) := by
  obtain ⟨y, m, d⟩ := t
  show ymdLt (y, m, d) (nextDay (y, m, d))
  simp only [nextDay]
  by_cases hd : d < monthLength (isLeap y) m
  · rw [if_pos hd]
    exact Or.inr ⟨rfl, Or.inr ⟨rfl, by omega⟩⟩
  · rw [if_neg hd]
    by_cases hm : m < 12
    · rw [if_pos hm]
      exact Or.inr ⟨rfl, Or.inl (by omega)⟩
    · rw [if_neg hm]
      exact Or.inl (by omega)

theorem ymdLt_trans {a b c : Nat × Nat × Nat} (h1 : ymdLt a b) (h2 : ymdLt b c) :
    ymdLt a c := by
  obtain ⟨y1, m1, d1⟩ := a
  obtain ⟨y2, m2, d2⟩ := b
  obtain ⟨y3, m3, d3⟩ := c
  simp only [ymdLt] at h1 h2 ⊢
  omega

/-- The civil date is strictly (chronologically) increasing in the day
count. -/
theorem dateOfDays_lt {d1 d2 : Nat} (h : d1 < d2) :
    ymdLt (dateOfDays d1) (dateOfDays d2) := by
  induction d2 with
  | zero => omega
  | succ k ih =>
    have hstep : dateOfDays (k + 1) = nextDay (dateOfDays k) :=
      Function.iterate_succ_apply' nextDay k (1970, 1, 1)
    rw [hstep]
    rcases Nat.lt_or_ge d1 k with hk | hk
    · exact ymdLt_trans (ih hk) (nextDay_ymdLt _)
    · have hdk : d1 = k := by omega
      subst hdk
      exact nextDay_ymdLt _

theorem nextDay_valid {t : Nat × Nat × Nat} (h : ymdValid t) :
    ymdValid (nextDay t) := by
  obtain ⟨y, m, d⟩ := t
  have hml := monthLength_le (isLeap y) m
  simp only [ymdValid] at h
  show ymdValid (nextDay (y, m, d))
  simp only [nextDay]
  by_cases hd : d < monthLength (isLeap y) m
  · rw [if_pos hd]
    simp only [ymdValid]
    omega
  · rw [if_neg hd]
    by_cases hm : m < 12
    · rw [if_pos hm]
      simp only [ymdValid]
      omega
    · rw [if_neg hm]
      simp only [ymdValid]
      omega

theorem dateOfDays_valid (n : Nat) : ymdValid (dateOfDays n) := by
  induction n with
  | zero =>
    show ymdValid (1970, 1, 1)
    simp only [ymdValid]
    omega
  | succ k ih =>
    have hstep : dateOfDays (k + 1) = nextDay (dateOfDays k) :=
      Function.iterate_succ_apply' nextDay k (1970, 1, 1)
    rw [hstep]
    exact nextDay_valid ih

theorem dateOfDays_year_le {d1 d2 : Nat} (h : d1 ≤ d2) :
    (dateOfDays d1).1 ≤ (dateOfDays d2).1 := by
  rcases Nat.eq_or_lt_of_le h with heq | hlt
  · rw [heq]
  · have hm := dateOfDays_lt hlt
    rcases h1 : dateOfDays d1 with ⟨y1, m1, dd1⟩
    rcases h2 : dateOfDays d2 with ⟨y2, m2, dd2⟩
    rw [h1, h2] at hm
    simp only [ymdLt] at hm
    simp only []
    omega

/-- The case-folded ISO rendering is strictly increasing in the
timestamp, as long as the later date's year still fits four digits. -/
theorem lowerIso_lt {n m : Nat} (h : n < m)
    (hy : (dateOfDays (m / 86400000)).1 < 10000) :
    lowerStr (toISOStringModel n) < lowerStr (toISOStringModel m) := by
  rcases h1 : dateOfDays (n / 86400000) with ⟨y1, mo1, dd1⟩
  rcases h2 : dateOfDays (m / 86400000) with ⟨y2, mo2, dd2⟩
  have hv1 := dateOfDays_valid (n / 86400000)
  have hv2 := dateOfDays_valid (m / 86400000)
  rw [h1] at hv1
  rw [h2] at hv2
  simp only [ymdValid] at hv1 hv2
  rw [h2] at hy
  have hy2 : y2 < 10000 := hy
  have hy1 : y1 ≤ y2 := by
    have hle := dateOfDays_year_le (Nat.div_le_div_right (le_of_lt h) :
      n / 86400000 ≤ m / 86400000)
    rw [h1, h2] at hle
    exact hle
  have heq1 : toISOStringModel n = ⟨isoCharsWith 'T' 'Z' y1 mo1 dd1
      (n % 86400000 / 3600000) (n % 86400000 % 3600000 / 60000)
      (n % 86400000 % 60000 / 1000) (n % 86400000 % 1000)⟩ := by
    simp [toISOStringModel, h1]
  have heq2 : toISOStringModel m = ⟨isoCharsWith 'T' 'Z' y2 mo2 dd2
      (m % 86400000 / 3600000) (m % 86400000 % 3600000 / 60000)
      (m % 86400000 % 60000 / 1000) (m % 86400000 % 1000)⟩ := by
    simp [toISOStringModel, h2]
  rw [heq1, heq2]
  show (⟨(isoCharsWith 'T' 'Z' y1 mo1 dd1 _ _ _ _).map Char.toLower⟩ : String)
      < ⟨(isoCharsWith 'T' 'Z' y2 mo2 dd2 _ _ _ _).map Char.toLower⟩
  rw [map_toLower_isoChars, map_toLower_isoChars]
  apply String.lt_iff_toList_lt.mpr
  show List.Lex (· < ·) _ _
  apply isoCharsWith_mono
  · show y2 < 10 ^ 4
    norm_num
    omega
  · show mo2 < 10 ^ 2
    norm_num
    omega
  · show dd2 < 10 ^ 2
    norm_num
    omega
  · show m % 86400000 / 3600000 < 10 ^ 2
    norm_num
    omega
  · show m % 86400000 % 3600000 / 60000 < 10 ^ 2
    norm_num
    omega
  · show m % 86400000 % 60000 / 1000 < 10 ^ 2
    norm_num
    omega
  · show m % 86400000 % 1000 < 10 ^ 3
    norm_num
    omega
  · rcases Nat.lt_or_ge (n / 86400000) (m / 86400000) with hdays | hdays
    · have hdl := dateOfDays_lt hdays
      rw [h1, h2] at hdl
      simp only [ymdLt] at hdl
      omega
    · have hde : n / 86400000 = m / 86400000 := by omega
      rw [hde, h2] at h1
      have hinj : y1 = y2 ∧ mo1 = mo2 ∧ dd1 = dd2 := by
        simpa [Prod.ext_iff] using h1.symm
      obtain ⟨rfl, rfl, rfl⟩ := hinj
      have hrem : n % 86400000 < m % 86400000 := by omega
      omega

/-- Case-folded lexicographic comparison of rendered ISO timestamps is
exactly chronological comparison of the timestamps. -/
theorem lowerIso_lt_iff (n m : Nat)
    (hy : (dateOfDays (max n m / 86400000)).1 < 10000) :
    (lowerStr (toISOStringModel n) < lowerStr (toISOStringModel m)) ↔ n < m := by
  rcases lt_trichotomy n m with h | h | h
  · rw [Nat.max_eq_right (le_of_lt h)] at hy
    exact iff_of_true (lowerIso_lt h hy) h
  · subst h
    exact iff_of_false (lt_irrefl _) (lt_irrefl _)
  · rw [Nat.max_eq_left (le_of_lt h)] at hy
    exact iff_of_false (lt_asymm (lowerIso_lt h hy)) (by omega)

theorem stringCmpAsc_lt_iff (A B : String) :
    (if A < B then Ordering.lt else if A > B then Ordering.gt else Ordering.eq)
      = Ordering.lt ↔ A < B := by
  by_cases h1 : A < B
  · simp [h1]
  · by_cases h2 : A > B <;> simp [h1, h2]

theorem stringCmp_eq_of_eq (d : Dir) {A B : String} (h : A = B) :
    (if A < B then (match d with | Dir.asc => Ordering.lt | Dir.desc => Ordering.gt)
     else if A > B then (match d with | Dir.asc => Ordering.gt | Dir.desc => Ordering.lt)
     else Ordering.eq) = Ordering.eq := by
  subst h
  simp [lt_irrefl]

theorem stringCmp_eq_iff (d : Dir) (A B : String) :
    ((if A < B then (match d with | Dir.asc => Ordering.lt | Dir.desc => Ordering.gt)
      else if A > B then (match d with | Dir.asc => Ordering.gt | Dir.desc => Ordering.lt)
      else Ordering.eq) = Ordering.eq) ↔ A = B := by
  rcases lt_trichotomy A B with h | h | h
  · rw [if_pos h]
    cases d <;> simp [h.ne]
  · subst h
    simp [lt_irrefl]
  · rw [if_neg (asymm h), if_pos h]
    cases d <;> simp [h.ne']

theorem stringCmp_desc_swap (A B : String) :
    (if A < B then Ordering.gt else if A > B then Ordering.lt else Ordering.eq)
      = (if A < B then Ordering.lt else if A > B then Ordering.gt else Ordering.eq).swap := by
  rcases lt_trichotomy A B with h | h | h
  · rw [if_pos h, if_pos h]
    rfl
  · subst h
    rw [if_neg (lt_irrefl A), if_neg (lt_irrefl A)]
    rw [if_neg (lt_irrefl A), if_neg (lt_irrefl A)]
    rfl
  · rw [if_neg (asymm h), if_pos h, if_neg (asymm h), if_pos h]
    rfl

theorem signOrd_neg_swap (n : Int) : signOrd (-n) = (signOrd n).swap := by
  unfold signOrd
  rcases lt_trichotomy n 0 with h | h | h
  · rw [if_neg (show ¬ -n < 0 by omega), if_pos (show 0 < -n by omega), if_pos h]
    rfl
  · subst h
    decide
  · rw [if_pos (show -n < 0 by omega), if_neg (show ¬ n < 0 by omega), if_pos h]
    rfl

theorem signOrd_eq_iff (n : Int) : signOrd n = .eq ↔ n = 0 := by
  unfold signOrd
  rcases lt_trichotomy n 0 with h | h | h
  · rw [if_pos h]
    simp [h.ne]
  · subst h
    decide
  · rw [if_neg (show ¬ n < 0 by omega), if_pos h]
    simp [h.ne']

theorem signOrd_lt_iff (n : Int) : signOrd n = .lt ↔ n < 0 := by
  unfold signOrd
  rcases lt_trichotomy n 0 with h | h | h
  · simp [h]
  · subst h
    decide
  · rw [if_neg (show ¬ n < 0 by omega), if_pos h]
    constructor
    · intro hc
      exact absurd hc (by decide)
    · intro hc
      omega

theorem cmpV1_eq_of_key_eq (f : SortField) (d : Dir) (a b : RecordV1)
    (h : lowerStr (jsIndexV1 f a) = lowerStr (jsIndexV1 f b)) :
    cmpV1 f d a b = .eq :=
  stringCmp_eq_of_eq d h

theorem cmpV1_eq_iff (f : SortField) (d : Dir) (a b : RecordV1) :
    cmpV1 f d a b = .eq ↔ lowerStr (jsIndexV1 f a) = lowerStr (jsIndexV1 f b) :=
  stringCmp_eq_iff d (lowerStr (jsIndexV1 f a)) (lowerStr (jsIndexV1 f b))

theorem cmpV1_desc_swap (f : SortField) (a b : RecordV1) :
    cmpV1 f .desc a b = (cmpV1 f .asc a b).swap :=
  stringCmp_desc_swap (lowerStr (jsIndexV1 f a)) (lowerStr (jsIndexV1 f b))

theorem cmpV2_eq_of_key_eq (f : SortField) (d : Dir) (a b : RecordV2)
    (h : sortKeyV2 f a = sortKeyV2 f b) : cmpV2 f d a b = .eq := by
  cases f
  case createdAt =>
    have h' : a.createdAt = b.createdAt := by simpa [sortKeyV2] using h
    cases d <;> simp [cmpV2, h', signOrd]
  case name =>
    exact stringCmp_eq_of_eq d (by simpa [sortKeyV2] using h)
  case email =>
    exact stringCmp_eq_of_eq d (by simpa [sortKeyV2] using h)
  case role =>
    exact stringCmp_eq_of_eq d (by simpa [sortKeyV2] using h)

theorem cmpV2_desc_swap (f : SortField) (a b : RecordV2) :
    cmpV2 f .desc a b = (cmpV2 f .asc a b).swap := by
  cases f
  case createdAt =>
    show signOrd (b.createdAt - a.createdAt) = (signOrd (a.createdAt - b.createdAt)).swap
    rw [← neg_sub a.createdAt b.createdAt, signOrd_neg_swap]
  case name => exact stringCmp_desc_swap _ _
  case email => exact stringCmp_desc_swap _ _
  case role => exact stringCmp_desc_swap _ _

/-- C6: the sort step of both variants is stable: for any field,
direction and key value, the subsequence of records whose sort key
equals that value is the same, in the same order, before and after
sorting (equal-key records keep their relative input order). Text keys
tie exactly on case-folded equality (case-insensitive comparison), desc
is the Ordering-swap of asc — flipping only the key comparison, never
the tie-break — and createdAt is compared chronologically in both
variants: numerically in variant 2, and in variant 1 — which stores
createdAt as toISOString output — the comparator orders two records by
their timestamps whenever the later year still fits four digits. -/
theorem C6_sort_stable :
    (∀ (f : SortField) (d : Dir) (l : List RecordV1) (v : String),
        (sortStepV1 f d l).filter (fun r => decide (lowerStr (jsIndexV1 f r) = v))
          = l.filter (fun r => decide (lowerStr (jsIndexV1 f r) = v)))
    ∧ (∀ (f : SortField) (d : Dir) (l : List RecordV2) (v : String ⊕ Int),
        (sortStepV2 f d l).filter (fun r => decide (sortKeyV2 f r = v))
          = l.filter (fun r => decide (sortKeyV2 f r = v)))
    ∧ (∀ (f : SortField) (a b : RecordV1),
        cmpV1 f Dir.desc a b = (cmpV1 f Dir.asc a b).swap)
    ∧ (∀ (f : SortField) (a b : RecordV2),
        cmpV2 f Dir.desc a b = (cmpV2 f Dir.asc a b).swap)
    ∧ (∀ (f : SortField) (d : Dir) (a b : RecordV1),
        cmpV1 f d a b = Ordering.eq ↔ lowerStr (jsIndexV1 f a) = lowerStr (jsIndexV1 f b))
    ∧ (∀ (d : Dir) (a b : RecordV2),
        cmpV2 SortField.createdAt d a b = Ordering.eq ↔ a.createdAt = b.createdAt)
    ∧ (∀ (a b : RecordV2),
        cmpV2 SortField.createdAt Dir.asc a b = Ordering.lt ↔ a.createdAt < b.createdAt)
    ∧ (∀ (a b : RecordV1) (n m : Nat),
        a.createdAt = toISOStringModel n → b.createdAt = toISOStringModel m →
        (dateOfDays (max n m / 86400000)).1 < 10000 →
        (cmpV1 SortField.createdAt Dir.asc a b = Ordering.lt ↔ n < m)) := by
  refine ⟨?_, ?_, cmpV1_desc_swap, cmpV2_desc_swap, cmpV1_eq_iff, ?_, ?_, ?_⟩
  · intro f d l v
    unfold sortStepV1
    apply filter_sortCmp
    intro x hx y hgt
    cases hy : decide (lowerStr (jsIndexV1 f y) = v)
    · rfl
    · exfalso
      have hx' : lowerStr (jsIndexV1 f x) = v := by simpa using hx
      have hy' : lowerStr (jsIndexV1 f y) = v := by simpa using hy
      rw [show cmpV1 f d x y = Ordering.eq from
            cmpV1_eq_of_key_eq f d x y (hx'.trans hy'.symm)] at hgt
      exact absurd hgt (by decide)
  · intro f d l v
    unfold sortStepV2
    apply filter_sortCmp
    intro x hx y hgt
    cases hy : decide (sortKeyV2 f y = v)
    · rfl
    · exfalso
      have hx' : sortKeyV2 f x = v := by simpa using hx
      have hy' : sortKeyV2 f y = v := by simpa using hy
      rw [show cmpV2 f d x y = Ordering.eq from
            cmpV2_eq_of_key_eq f d x y (hx'.trans hy'.symm)] at hgt
      exact absurd hgt (by decide)
  · intro d a b
    cases d
    · show signOrd (a.createdAt - b.createdAt) = Ordering.eq ↔ _
      rw [signOrd_eq_iff, sub_eq_zero]
    · show signOrd (b.createdAt - a.createdAt) = Ordering.eq ↔ _
      rw [signOrd_eq_iff, sub_eq_zero, eq_comm]
  · intro a b
    show signOrd (a.createdAt - b.createdAt) = Ordering.lt ↔ _
    rw [signOrd_lt_iff, sub_neg]
  · intro a b n m han hbm hy
    have hcmp : cmpV1 SortField.createdAt Dir.asc a b
        = (if lowerStr a.createdAt < lowerStr b.createdAt then Ordering.lt
           else if lowerStr a.createdAt > lowerStr b.createdAt then Ordering.gt
           else Ordering.eq) := rfl
    rw [hcmp, stringCmpAsc_lt_iff, han, hbm]
    exact lowerIso_lt_iff n m hy

/-- Witness for the chronological conjunct of C6_sort_stable at two
records created one minute apart on the first epoch day. -/
theorem C6_sort_stable_witness :
    (cmpV1 SortField.createdAt Dir.asc
        { id := 1, name := "Ana", email := "ana@example.com", role := "user",
          createdAt := toISOStringModel 0 }
        { id := 2, name := "Bo", email := "bo@example.com", role := "user",
          createdAt := toISOStringModel 60000 } = Ordering.lt
      ↔ (0:Nat) < 60000) :=
  C6_sort_stable.2.2.2.2.2.2.2 _ _ 0 60000 rfl rfl (by decide)
